import Mathlib

/-!
Verification of the scheduling, parsing and reporting core of
`src/ai_benchmark.py` (an OpenVINO multi-GPU benchmark driver).

The Python source is shallowly embedded as executable Lean definitions:

* text is `String` / `List Char`;
* Python `float` values are modelled as exact rationals `ℚ` (every numeric
  literal the program parses is a finite decimal, and no claim under test
  depends on IEEE-754 rounding of the binary representation);
* the external world (the `benchmark_app` child process, the
  `/sys/.../sriov_numvfs` file) is a parameter of the embedded functions;
* fallible Python code (code that can raise) returns `Except`;
* a Python `dict` is an association list in insertion order, with
  `dictInsert` implementing key-overwriting assignment.
-/

namespace SriovBenchmark

/-- ASCII whitespace: the characters matched by Python's regex class `\s`
(and stripped by `str.strip`) on the ASCII text this tool handles. -/
def isWS (c : Char) : Bool :=
  c == ' ' || c == '\t' || c == '\n' || c == '\r' || c == '\x0B' || c == '\x0C'

/-- The regex character class `[\d.]` from the throughput pattern of
`parse_fps_from_output` (src/ai_benchmark.py line 58): a decimal digit or a dot. -/
def isDD (c : Char) : Bool :=
  c.isDigit || c == '.'

/-- Match a literal character sequence at the head of the input, returning the
rest of the input on success (the regex engine's treatment of literal parts of
the pattern). -/
def lit : List Char → List Char → Option (List Char)
  | [], s => some s
  | _ :: _, [] => none
  | c :: cs, d :: ds => if c = d then lit cs ds else none

/-- The part `([\d.]+)\s*FPS` of the throughput pattern, matched against the
input after `Throughput:\s*` has been consumed: take the maximal run of
`[\d.]` characters as the captured group (it must be nonempty), then skip
whitespace and require the literal `FPS`. -/
def matchNum (r4 : List Char) : Option (List Char) :=
  match r4.takeWhile isDD with
  | [] => none
  | g0 :: g =>
    match lit "FPS".toList ((r4.dropWhile isDD).dropWhile isWS) with
    | none => none
    | some _ => some (g0 :: g)

/-- The part `\s*Throughput:\s*([\d.]+)\s*FPS` of the throughput pattern,
matched against the input after `\]` has been consumed. -/
def matchAfterRBracket (r2 : List Char) : Option (List Char) :=
  match lit "Throughput:".toList (r2.dropWhile isWS) with
  | none => none
  | some r3 => matchNum (r3.dropWhile isWS)

/-- The part `\s*INFO\s*\]...` of the throughput pattern, matched against the
input after the opening `\[` has been consumed. -/
def matchAfterBracket (r0 : List Char) : Option (List Char) :=
  match lit "INFO".toList (r0.dropWhile isWS) with
  | none => none
  | some r1 =>
    match r1.dropWhile isWS with
    | ']' :: r2 => matchAfterRBracket r2
    | _ => none

/-- Attempt to match the pattern `\[\s*INFO\s*\]\s*Throughput:\s*([\d.]+)\s*FPS`
(src/ai_benchmark.py line 58) at the start of `s`, returning the text captured
by the group `([\d.]+)` on success.

Greedy matching without backtracking is complete for this particular pattern:
every `\s*` is followed by a literal whose first character (`I`, `]`, `T`, `F`)
is not whitespace, and `([\d.]+)\s*FPS` follows the digit run with characters
(`F`, or whitespace) that are not in `[\d.]`, so the maximal munch taken here
is the only candidate the backtracking engine could accept. -/
def matchAt (s : List Char) : Option (List Char) :=
  match s with
  | '[' :: r0 => matchAfterBracket r0
  | _ => none

/-- The embedding of `re.search` for the fixed throughput pattern: try to match
at every position, leftmost first, and return the captured group of the first
match. (Matching at the very end of the text is covered because `matchAt []`
is `none`: the pattern needs at least a literal `[`.) -/
def regexSearch : List Char → Option (List Char)
  | [] => none
  | c :: rest =>
    match matchAt (c :: rest) with
    | some g => some g
    | none => regexSearch rest

/-- Numeric value of a list of decimal digit characters, most significant
first (the usual positional reading used by Python's number parsing). -/
def natOfDigits (l : List Char) : ℕ :=
  l.foldl (fun n c => 10 * n + (c.toNat - 48)) 0

/-- Exact value of a decimal literal made of digits and at most one dot, as
parsed by Python's `float` (e.g. `208.36`, `5.`, `.5`, `100`). -/
def ratOfDigitDot (g : List Char) : ℚ :=
  let ip := g.takeWhile (fun c => c ≠ '.')
  let fp := (g.dropWhile (fun c => c ≠ '.')).drop 1
  (natOfDigits ip : ℚ) + (natOfDigits fp : ℚ) / (10 : ℚ) ^ fp.length

/-- Python's `float(s)` restricted to the strings the capture group `[\d.]+`
can produce: it succeeds exactly when the token has at least one digit and at
most one dot, and raises `ValueError` (here: `none`) otherwise — for example
on `"."` or `"1.2.3"`. The binary rounding of the resulting `float` is
abstracted to the exact decimal value. -/
def pyFloat (g : List Char) : Option ℚ :=
  if g ≠ [] ∧ (∀ c ∈ g, isDD c = true) ∧ g.any Char.isDigit = true ∧ g.count '.' ≤ 1
  then some (ratOfDigitDot g) else none

/-- Embedding of `parse_fps_from_output` (src/ai_benchmark.py lines 47-63).
`Except.ok (some v)` is a returned FPS value, `Except.ok none` is the `None`
returned when the pattern does not occur, and `Except.error g` is the
`ValueError` that `float(match.group(1))` raises when the captured token `g`
is not a valid float literal. -/
def parse_fps_from_output (output : List Char) : Except (List Char) (Option ℚ) :=
  match regexSearch output with
  | some g =>
    match pyFloat g with
    | some v => Except.ok (some v)
    | none => Except.error g
  | none => Except.ok none

deriving instance DecidableEq for Except

/-! Lexicographic string comparison by code point, the order Python's
`list.sort(key=lambda x: x[0])` uses on the device-name keys in
`print_summary` (src/ai_benchmark.py line 232). -/

/-- Lexicographic comparison of character lists by code point. -/
def lexLe : List Char → List Char → Bool
  | [], _ => true
  | _ :: _, [] => false
  | a :: as, b :: bs => if a = b then lexLe as bs else decide (a < b)

/-- Python's `s <= t` on strings: lexicographic by code point. -/
def strLe (a b : String) : Bool :=
  lexLe a.toList b.toList

/-- The outcome `(fps, error_message)` that `benchmark_gpu` reports for one
device: `fps` is `some v` on success and `none` on any failure, in which case
the message classifies the failure (src/ai_benchmark.py lines 101-111). -/
abbrev BenchOut := Option ℚ × String

/-- A Python `dict` mapping device names to outcomes, kept in insertion
order (`results` / `all_results` in src/ai_benchmark.py). -/
abbrev Results := List (String × BenchOut)

/-- Python dict assignment `m[k] = v`: overwrite the value if the key is
present, otherwise append the new binding. -/
def dictInsert (m : Results) (k : String) (v : BenchOut) : Results :=
  if m.any (fun p => p.1 == k) then
    m.map (fun p => if p.1 == k then (k, v) else p)
  else m ++ [(k, v)]

/-- Python `m.update(new)`: assign every binding of `new` into `m`, in order. -/
def dictUpdate (m new : Results) : Results :=
  new.foldl (fun acc p => dictInsert acc p.1 p.2) m

/-- The list comprehension of src/ai_benchmark.py line 227: the `(device, fps)`
pairs of the outcomes whose `fps` is not `None`, in dict order. -/
def successes (results : Results) : List (String × ℚ) :=
  results.filterMap (fun p => p.2.1.map (fun v => (p.1, v)))

/-- The list comprehension of src/ai_benchmark.py line 228: the
`(device, error)` pairs of the outcomes whose `fps` is `None`, in dict order. -/
def failures (results : Results) : List (String × String) :=
  results.filterMap (fun p => if p.2.1.isSome then none else some (p.1, p.2.2))

/-- The in-place `successful_results.sort(key=lambda x: x[0])` of
src/ai_benchmark.py line 232: sort by device name ascending. (The keys of a
dict are distinct, so any sort by key produces the same list and stability is
immaterial.) -/
def sortByKey (l : List (String × ℚ)) : List (String × ℚ) :=
  l.insertionSort (fun p q => strLe p.1 q.1 = true)

/-- Two-digit zero-padded rendering of a number below 100. -/
def pad2 (n : ℕ) : String :=
  if n < 10 then "0" ++ toString n else toString n

/-- Python's `f"{q:.2f}"` on the exact rational `q`: round to two decimal
places, ties to even, and render with exactly two fractional digits. Written
over `q.num` and `q.den` with integer arithmetic only. The program only
formats nonnegative parsed throughputs, for which this agrees with CPython. -/
def fmt2 (q : ℚ) : String :=
  let den : ℤ := (q.den : ℤ)
  let t : ℤ := 100 * q.num
  let fl : ℤ := t.fdiv den
  let r : ℤ := t.fmod den
  let c : ℤ :=
    if 2 * r < den then fl
    else if den < 2 * r then fl + 1
    else if fl % 2 = 0 then fl else fl + 1
  let a : ℕ := c.natAbs
  (if c < 0 then "-" else "") ++ toString (a / 100) ++ "." ++ pad2 (a % 100)

/-- ANSI escape for the affirmative (green) tone (src/ai_benchmark.py line 220). -/
def GREEN : String := "\x1b[92m"

/-- ANSI escape for the negative (red) tone (src/ai_benchmark.py line 221). -/
def RED : String := "\x1b[91m"

/-- ANSI reset escape (src/ai_benchmark.py line 222). -/
def RESET : String := "\x1b[0m"

/-- The 62-dash delimiter line of the summary block. -/
def dashes : String := String.mk (List.replicate 62 '-')

/-- The model-name line of the summary (src/ai_benchmark.py line 235). -/
def modelLine (model_path : String) : String :=
  GREEN ++ "\t Model: " ++ model_path ++ RESET

/-- One per-device success line of the summary (src/ai_benchmark.py line 239). -/
def renderSuccess (p : String × ℚ) : String :=
  GREEN ++ "\t " ++ p.1 ++ ": " ++ fmt2 p.2 ++ " FPS" ++ RESET

/-- The header of the failure block (src/ai_benchmark.py line 242). -/
def failHeader : String := RED ++ "[ FAILED ] Devices:" ++ RESET

/-- One per-device failure line of the summary (src/ai_benchmark.py line 244). -/
def renderFailure (p : String × String) : String :=
  RED ++ "\t " ++ p.1 ++ ": " ++ p.2 ++ RESET

/-- Embedding of `print_summary` (src/ai_benchmark.py lines 211-246) as the
list of lines it prints. A `print(s)` that starts (or ends) its f-string with
`\n` contributes an empty line before (after) its payload, which is how the
delimiter prints at lines 225 and 246 and the failure header at line 242
appear here. -/
def print_summary (model_path : String) (results : Results) : List String :=
  let succ := sortByKey (successes results)
  let fail := failures results
  ["", dashes]
    ++ (if succ.isEmpty then [] else modelLine model_path :: succ.map renderSuccess)
    ++ (if fail.isEmpty then [] else ["", failHeader] ++ fail.map renderFailure)
    ++ [dashes, ""]

/-- Behaviour of one `subprocess.run` invocation of the external
`benchmark_app` executable, as observed by `benchmark_gpu`: it either
completes (with captured standard output and standard error), exceeds the
timeout (`subprocess.TimeoutExpired`), cannot be located
(`FileNotFoundError`), or fails some other way (any other `Exception`,
carrying its message). The child process is external to this program, so it
enters the embedding as a parameter of type `List String → ℤ → ExecResult`
mapping the command line and the applied timeout to the observed behaviour. -/
inductive ExecResult where
  | completed (stdout stderr : List Char)
  | timedOut
  | notFound
  | otherError (msg : String)
deriving DecidableEq

/-- The command line `benchmark_gpu` builds (src/ai_benchmark.py lines 78-83). -/
def bench_cmd (model_path device : String) (duration : ℤ) : List String :=
  ["benchmark_app", "-m", model_path, "-d", device, "-t", toString duration]

/-- The `(fps, error_message)` part of `benchmark_gpu`'s return value
(src/ai_benchmark.py lines 85-111). The child is run with timeout
`duration + 60` (line 92); stdout and stderr are concatenated (line 96) and
fed to the parser. A `ValueError` raised by `float()` inside the parser is
caught by the final `except Exception` arm (line 110), so even that case
yields an outcome rather than an escaping exception. -/
def bench_outcome (exec : List String → ℤ → ExecResult) (model_path device : String)
    (duration : ℤ) : BenchOut :=
  match exec (bench_cmd model_path device duration) (duration + 60) with
  | ExecResult.completed out err =>
    match parse_fps_from_output (out ++ err) with
    | Except.ok (some fps) => (some fps, "")
    | Except.ok none => (none, "Failed to parse FPS from output")
    | Except.error g =>
        (none, "Error: could not convert string to float: " ++ String.mk g)
  | ExecResult.timedOut => (none, "Benchmark timed out")
  | ExecResult.notFound => (none, "benchmark_app not found in PATH")
  | ExecResult.otherError m => (none, "Error: " ++ m)

/-- Embedding of `benchmark_gpu` (src/ai_benchmark.py lines 66-111): every
code path returns the tuple `(device, fps, error)` with the requested device
name in the first component. -/
def benchmark_gpu (exec : List String → ℤ → ExecResult) (model_path device : String)
    (duration : ℤ) : String × BenchOut :=
  (device, bench_outcome exec model_path device duration)

/-- The `[ COMPLETED ]` / `[ FAILED ]` progress line printed when a task's
result is collected (src/ai_benchmark.py lines 199-202 and 140-143). -/
def progressLine (p : String × BenchOut) : String :=
  match p.2.1 with
  | some fps => "[ COMPLETED ] " ++ p.1 ++ ": " ++ fmt2 fps ++ " FPS"
  | none => "[ FAILED ] " ++ p.1 ++ ": " ++ p.2.2

/-- Embedding of `run_parallel_gpu_benchmarks` (src/ai_benchmark.py lines
159-208), returning the results dict and the printed lines. The tasks run in
one concurrent batch and `as_completed` hands their results back in an
arbitrary completion order, which enters the embedding as the parameter
`order` (the theorems below require it to be a permutation of `gpu_devices`);
the dict is then built by `results[device] = (fps, error)` in that order.
The per-task `[ INFO ] Starting benchmark on ...` lines printed from inside
the worker threads interleave nondeterministically and are not modelled. -/
def run_parallel_gpu_benchmarks (exec : List String → ℤ → ExecResult)
    (model_path : String) (gpu_devices : List String) (duration : ℤ)
    (show_summary : Bool) (order : List String) : Results × List String :=
  if gpu_devices.isEmpty then ([], [])
  else
    let header :=
      (if gpu_devices.length == 1 && show_summary then
        ["", "[ INFO ] Running benchmark on " ++ gpu_devices.headI]
       else if show_summary then
        ["", "[ INFO ] Starting parallel benchmarks on "
          ++ toString gpu_devices.length ++ " GPU(s)"]
       else [])
      ++ (if show_summary then
            ["[ INFO ] Model: " ++ model_path,
             "[ INFO ] Duration: " ++ toString duration ++ " seconds per GPU", ""]
          else [])
    let results := order.foldl (fun acc d =>
      let r := benchmark_gpu exec model_path d duration
      dictInsert acc r.1 r.2) []
    let progress := order.map
      (fun d => progressLine (benchmark_gpu exec model_path d duration))
    let tail := if show_summary then print_summary model_path results else []
    (results, header ++ progress ++ tail)

/-- Embedding of `run_benchmarks` (src/ai_benchmark.py lines 114-156),
returning the collected results dict and the printed lines. When SR-IOV is
detected and more than one device exists, `GPU.0` (if discovered) runs alone
and synchronously first, then the remaining devices run as one concurrent
batch with completion order `order`, and the two result sets are merged with
`all_results.update(...)`; otherwise all devices run as one batch. -/
def run_benchmarks (exec : List String → ℤ → ExecResult) (sriov_enabled : Bool)
    (model_path : String) (gpu_devices : List String) (duration : ℤ)
    (order : List String) : Results × List String :=
  if sriov_enabled = true ∧ 1 < gpu_devices.length then
    let intro := ["",
      "[ INFO ] SR-IOV detected - running GPU.0 first, then GPU.1+ in parallel",
      "[ INFO ] Model: " ++ model_path,
      "[ INFO ] Duration: " ++ toString duration ++ " seconds per GPU", ""]
    let step1 : Results × List String :=
      if "GPU.0" ∈ gpu_devices then
        let r := benchmark_gpu exec model_path "GPU.0" duration
        (dictInsert [] r.1 r.2,
          ["[ INFO ] Running benchmark on GPU.0 (main GPU)...", progressLine r])
      else ([], [])
    let remaining := gpu_devices.filter (fun g => g ≠ "GPU.0")
    let step2 : Results × List String :=
      if remaining.isEmpty then ([], [])
      else
        let pr := run_parallel_gpu_benchmarks exec model_path remaining duration false order
        (pr.1, ["", "[ INFO ] Running remaining " ++ toString remaining.length
          ++ " GPU(s) in parallel..."] ++ pr.2)
    let all_results := dictUpdate step1.1 step2.1
    (all_results, intro ++ step1.2 ++ step2.2 ++ print_summary model_path all_results)
  else
    run_parallel_gpu_benchmarks exec model_path gpu_devices duration true order

/-- Python `str.strip()` on the ASCII text read from the counter file. -/
def pyStrip (s : String) : String :=
  String.mk ((s.toList.dropWhile isWS).reverse.dropWhile isWS).reverse

/-- Validity of the tail of an integer literal for Python's `int()`: digits
with single underscores allowed between digits. -/
def intDigitsTail : List Char → Bool
  | [] => true
  | ['_'] => false
  | '_' :: d :: rest => d.isDigit && intDigitsTail rest
  | d :: rest => d.isDigit && intDigitsTail rest

/-- Validity of the digit part of an integer literal for Python's `int()`. -/
def intDigits : List Char → Bool
  | [] => false
  | c :: rest => c.isDigit && intDigitsTail rest

/-- Python's `int(s)` on an already-stripped string: optional sign followed by
digits (with single underscores allowed between digits); `none` is the
`ValueError` raised on anything else. -/
def pyInt (s : String) : Option ℤ :=
  match s.toList with
  | '+' :: rest =>
    if intDigits rest then some (natOfDigits (rest.filter (fun c => c ≠ '_')) : ℤ) else none
  | '-' :: rest =>
    if intDigits rest then some (-(natOfDigits (rest.filter (fun c => c ≠ '_')) : ℤ)) else none
  | l =>
    if intDigits l then some (natOfDigits (l.filter (fun c => c ≠ '_')) : ℤ) else none

/-- Behaviour of `open('/sys/class/drm/card1/device/sriov_numvfs').read()` as
observed by `is_sriov_enabled`: the read yields text, or raises
`FileNotFoundError`, `PermissionError`, or some other `OSError` (for example
`EIO`, or `IsADirectoryError`) that the source's `except` clause does not
name. -/
inductive ReadResult where
  | content (s : String)
  | fileNotFound
  | permissionError
  | osError (msg : String)
deriving DecidableEq

/-- Embedding of `is_sriov_enabled` (src/ai_benchmark.py lines 32-44).
`Except.ok b` is a normal return; `Except.error m` is an exception escaping
the function: the source catches exactly
`(FileNotFoundError, ValueError, PermissionError)`, so any other `OSError`
raised by the read propagates. -/
def is_sriov_enabled (read : ReadResult) : Except String Bool :=
  match read with
  | ReadResult.content s =>
    match pyInt (pyStrip s) with
    | some n => Except.ok (decide (0 < n))
    | none => Except.ok false
  | ReadResult.fileNotFound => Except.ok false
  | ReadResult.permissionError => Except.ok false
  | ReadResult.osError m => Except.error m

/-- A dispatch / completion event of one device's benchmark task. -/
inductive Ev where
  | start (d : String)
  | finish (d : String)
deriving DecidableEq

/-- The event traces one concurrent batch (a single
`ThreadPoolExecutor` fan-out over `D`, src/ai_benchmark.py lines 187-197) can
produce: events mention only devices of `D`, every device of `D` is started
exactly once and finishes exactly once, and each device starts before it
finishes. Any interleaving satisfying this is a possible schedule. -/
def isBatchTrace (D : List String) (ev : List Ev) : Bool :=
  ev.all (fun e => match e with
    | Ev.start d => D.contains d
    | Ev.finish d => D.contains d)
  && D.all (fun d =>
      ev.count (Ev.start d) == 1 && ev.count (Ev.finish d) == 1
      && decide (ev.indexOf (Ev.start d) < ev.indexOf (Ev.finish d)))

/-- The event traces of the staged branch of `run_benchmarks`
(src/ai_benchmark.py lines 128-150). Python evaluates line 137's synchronous
call to `benchmark_gpu` to completion before line 149 submits the remaining
batch, so with the primary present every trace is the primary's start and
finish followed by some batch trace of the remaining devices; with the
primary absent the trace is a single batch over all discovered devices. -/
def isStagedTrace (devices : List String) (ev : List Ev) : Bool :=
  if "GPU.0" ∈ devices then
    match ev with
    | e1 :: e2 :: rest =>
      e1 == Ev.start "GPU.0" && e2 == Ev.finish "GPU.0"
        && isBatchTrace (devices.filter (fun g => g ≠ "GPU.0")) rest
    | _ => false
  else isBatchTrace devices ev

/-- Substring occurrence test over character lists (`needle in haystack`). -/
def containsSub (needle hay : List Char) : Bool :=
  match hay with
  | [] => needle.isEmpty
  | c :: t => needle.isPrefixOf (c :: t) || containsSub needle t

/-- Modelled from the spec: the spec requires a "total throughput" line in
the summary (sum of the successful values, present when more than one device
succeeded), but the code prints no such line, so no exact format exists to
embed. A line counts as a total-throughput line here if it mentions the word
`Total` or renders the total value to two decimal places, which any
reasonable rendering of such a line would. Used only to settle claim C1. -/
def spec_total_line_present (lines : List String) (total : ℚ) : Bool :=
  lines.any (fun l =>
    containsSub "Total".toList l.toList || containsSub (fmt2 total).toList l.toList)

/-- A concrete outcome set with two successful devices (100 and 50 FPS). -/
def ex_two_success : Results :=
  [("GPU.0", (some 100, "")), ("GPU.1", (some 50, ""))]

/-! Smoke tests of the embedding on concrete inputs. -/

example : parse_fps_from_output "[ INFO ] Throughput:   208.36 FPS".toList =
    Except.ok (some (ratOfDigitDot "208.36".toList)) := rfl

example : parse_fps_from_output "no throughput here".toList = Except.ok none := by decide

example : print_summary "m" [] = ["", dashes, dashes, ""] := by decide

example :
    print_summary "m" [("GPU.1", (some 100, "")), ("GPU.0", (none, "boom"))] =
      ["", dashes, modelLine "m", GREEN ++ "\t GPU.1: 100.00 FPS" ++ RESET, "",
        failHeader, RED ++ "\t GPU.0: boom" ++ RESET, dashes, ""] := by decide

/-! Helper lemmas about the character classes and the scanning primitives. -/

theorem ws_not_dd {c : Char} (h : isWS c = true) : isDD c = false := by
  simp only [isWS, Bool.or_eq_true, beq_iff_eq] at h
  rcases h with ((((h | h) | h) | h) | h) | h <;> subst h <;> decide

theorem dd_not_ws {c : Char} (h : isDD c = true) : isWS c = false := by
  cases hw : isWS c with
  | false => rfl
  | true => rw [ws_not_dd hw] at h; cases h

theorem dropWhile_all_head {α : Type _} (p : α → Bool) (l1 : List α) (c : α)
    (l2 : List α) (h1 : ∀ x ∈ l1, p x = true) (h2 : p c = false) :
    (l1 ++ c :: l2).dropWhile p = c :: l2 := by
  induction l1 with
  | nil => simp [List.dropWhile_cons, h2]
  | cons a t ih =>
    have ha : p a = true := h1 a (by simp)
    simp only [List.cons_append, List.dropWhile_cons, ha, if_true]
    exact ih (fun x hx => h1 x (by simp [hx]))

theorem takeWhile_all_head {α : Type _} (p : α → Bool) (l1 : List α) (c : α)
    (l2 : List α) (h1 : ∀ x ∈ l1, p x = true) (h2 : p c = false) :
    (l1 ++ c :: l2).takeWhile p = l1 := by
  induction l1 with
  | nil => simp [List.takeWhile_cons, h2]
  | cons a t ih =>
    have ha : p a = true := h1 a (by simp)
    simp only [List.cons_append, List.takeWhile_cons, ha, if_true]
    rw [ih (fun x hx => h1 x (by simp [hx]))]

theorem lit_self (xs rest : List Char) : lit xs (xs ++ rest) = some rest := by
  induction xs with
  | nil => rfl
  | cons c cs ih => simp [lit, ih]

theorem matchAt_cons_ne {c : Char} (l : List Char) (hc : c ≠ '[') :
    matchAt (c :: l) = none := by
  unfold matchAt
  split
  · next heq => injection heq with h1 _; exact absurd h1 hc
  · rfl

theorem regexSearch_append_of_no_bracket (pre s : List Char)
    (h : ∀ c ∈ pre, c ≠ '[') : regexSearch (pre ++ s) = regexSearch s := by
  induction pre with
  | nil => rfl
  | cons c t ih =>
    have hc : c ≠ '[' := h c (by simp)
    show regexSearch (c :: (t ++ s)) = regexSearch s
    simp only [regexSearch, matchAt_cons_ne _ hc]
    exact ih (fun x hx => h x (by simp [hx]))

theorem regexSearch_append_of_no_match (pre s : List Char)
    (h : ∀ i, i < pre.length → matchAt (pre.drop i ++ s) = none) :
    regexSearch (pre ++ s) = regexSearch s := by
  induction pre with
  | nil => rfl
  | cons c t ih =>
    have h0 : matchAt (c :: (t ++ s)) = none := by
      have hh := h 0 (by simp)
      simpa using hh
    show regexSearch (c :: (t ++ s)) = regexSearch s
    simp only [regexSearch, h0]
    exact ih (fun i hi => by
      have hh := h (i + 1) (by simpa using Nat.succ_lt_succ hi)
      simpa using hh)

theorem matchAfterBracket_eq (ws1 ws2 r2 : List Char)
    (h1 : ∀ c ∈ ws1, isWS c = true) (h2 : ∀ c ∈ ws2, isWS c = true) :
    matchAfterBracket (ws1 ++ ("INFO".toList ++ (ws2 ++ (']' :: r2)))) =
      matchAfterRBracket r2 := by
  unfold matchAfterBracket
  have e0 : "INFO".toList ++ (ws2 ++ (']' :: r2)) =
      'I' :: ("NFO".toList ++ (ws2 ++ (']' :: r2))) := rfl
  rw [e0, dropWhile_all_head isWS ws1 'I' _ h1 rfl]
  have e1 : ('I' : Char) :: ("NFO".toList ++ (ws2 ++ (']' :: r2))) =
      "INFO".toList ++ (ws2 ++ (']' :: r2)) := rfl
  rw [e1, lit_self]
  simp only []
  rw [dropWhile_all_head isWS ws2 ']' r2 h2 rfl]
  rfl

theorem matchAfterRBracket_eq (ws3 ws4 : List Char) (c : Char) (l : List Char)
    (h3 : ∀ x ∈ ws3, isWS x = true) (h4 : ∀ x ∈ ws4, isWS x = true)
    (hc : isWS c = false) :
    matchAfterRBracket (ws3 ++ ("Throughput:".toList ++ (ws4 ++ (c :: l)))) =
      matchNum (c :: l) := by
  unfold matchAfterRBracket
  have e0 : "Throughput:".toList ++ (ws4 ++ (c :: l)) =
      'T' :: ("hroughput:".toList ++ (ws4 ++ (c :: l))) := rfl
  rw [e0, dropWhile_all_head isWS ws3 'T' _ h3 rfl]
  have e1 : ('T' : Char) :: ("hroughput:".toList ++ (ws4 ++ (c :: l))) =
      "Throughput:".toList ++ (ws4 ++ (c :: l)) := rfl
  rw [e1, lit_self]
  simp only []
  rw [dropWhile_all_head isWS ws4 c l h4 hc]

theorem matchNum_eq (num ws5 post : List Char)
    (hnum : ∀ c ∈ num, isDD c = true) (hne : num ≠ [])
    (h5 : ∀ c ∈ ws5, isWS c = true) :
    matchNum (num ++ (ws5 ++ ("FPS".toList ++ post))) = some num := by
  have eF : "FPS".toList ++ post = 'F' :: ("PS".toList ++ post) := rfl
  have hhead : ∃ c l, ws5 ++ ("FPS".toList ++ post) = c :: l ∧ isDD c = false ∧
      (c :: l).dropWhile isWS = "FPS".toList ++ post := by
    cases ws5 with
    | nil =>
      refine ⟨'F', "PS".toList ++ post, by simp [eF], rfl, ?_⟩
      simp [List.dropWhile_cons, show isWS 'F' = false from rfl]
    | cons a t =>
      refine ⟨a, t ++ ("FPS".toList ++ post), by simp,
        ws_not_dd (h5 a (by simp)), ?_⟩
      have := dropWhile_all_head isWS (a :: t) 'F' ("PS".toList ++ post)
        h5 rfl
      simpa [eF] using this
  obtain ⟨c, l, hcl, hcdd, hdrop⟩ := hhead
  obtain ⟨n0, nt, rfl⟩ : ∃ n0 nt, num = n0 :: nt := by
    cases num with
    | nil => exact absurd rfl hne
    | cons n0 nt => exact ⟨n0, nt, rfl⟩
  unfold matchNum
  rw [hcl, takeWhile_all_head isDD (n0 :: nt) c l hnum hcdd,
    dropWhile_all_head isDD (n0 :: nt) c l hnum hcdd, hdrop, lit_self]

theorem matchAt_marker (ws1 ws2 ws3 ws4 ws5 num post : List Char)
    (h1 : ∀ c ∈ ws1, isWS c = true) (h2 : ∀ c ∈ ws2, isWS c = true)
    (h3 : ∀ c ∈ ws3, isWS c = true) (h4 : ∀ c ∈ ws4, isWS c = true)
    (h5 : ∀ c ∈ ws5, isWS c = true)
    (hnum : ∀ c ∈ num, isDD c = true) (hne : num ≠ []) :
    matchAt ('[' :: (ws1 ++ ("INFO".toList ++ (ws2 ++ (']' :: (ws3 ++
      ("Throughput:".toList ++ (ws4 ++ (num ++ (ws5 ++
        ("FPS".toList ++ post))))))))))) = some num := by
  obtain ⟨n0, nt, rfl⟩ : ∃ n0 nt, num = n0 :: nt := by
    cases num with
    | nil => exact absurd rfl hne
    | cons n0 nt => exact ⟨n0, nt, rfl⟩
  show matchAfterBracket _ = _
  rw [matchAfterBracket_eq _ _ _ h1 h2]
  have hn0 : isWS n0 = false := dd_not_ws (hnum n0 (by simp))
  have e0 : (n0 :: nt) ++ (ws5 ++ ("FPS".toList ++ post)) =
      n0 :: (nt ++ (ws5 ++ ("FPS".toList ++ post))) := rfl
  rw [e0, matchAfterRBracket_eq ws3 ws4 n0 _ h3 h4 hn0, ← e0]
  exact matchNum_eq (n0 :: nt) ws5 post hnum hne h5

/-! Claims C2 and C3: behaviour of the output parser. -/

/-- C2 counterexample: the claim says the parser returns a float or "absent"
on every input and never raises; but on `"[ INFO ] Throughput: . FPS"` the
regex matches with captured group `"."`, and `float(".")` raises
`ValueError`, so `parse_fps_from_output` raises instead of returning. -/
theorem c2_parse_raises_counterexample :
    parse_fps_from_output "[ INFO ] Throughput: . FPS".toList =
      Except.error ['.'] := by decide

/-- C2 (amended): for every input text the parser either returns a value,
returns "absent", or raises the `ValueError` of `float()` — and the latter
happens exactly when the pattern matches but the captured `[\d.]+` token is
not a valid float literal (it has no digit or more than one dot). On any text
in which the pattern does not occur it returns "absent" and never raises. -/
theorem c2_parse_safe (output : List Char) :
    (regexSearch output = none → parse_fps_from_output output = Except.ok none)
    ∧ (∀ g, regexSearch output = some g → (pyFloat g).isSome = true →
        parse_fps_from_output output = Except.ok (pyFloat g))
    ∧ (∀ g, regexSearch output = some g → pyFloat g = none →
        parse_fps_from_output output = Except.error g) := by
  refine ⟨fun h => ?_, fun g hg hs => ?_, fun g hg hn => ?_⟩
  · simp [parse_fps_from_output, h]
  · rcases Option.isSome_iff_exists.mp hs with ⟨v, hv⟩
    simp [parse_fps_from_output, hg, hv]
  · simp [parse_fps_from_output, hg, hn]

/-- Witness for `c2_parse_safe`: a concrete text with no throughput line is
parsed to "absent". -/
theorem c2_parse_safe_witness :
    parse_fps_from_output "some diagnostic text".toList = Except.ok none :=
  (c2_parse_safe "some diagnostic text".toList).1 (by decide)

/-- C3 counterexample: the claim says the brackets around the marker are
optional; but on `"INFO Throughput: 5 FPS"` — which contains
`"Throughput: 5 FPS"` with surrounding whitespace and no brackets — the
parser returns "absent", not `5`: the regex requires the literal
`[ INFO ]` bracket block before `Throughput:`. -/
theorem c3_brackets_required_counterexample :
    parse_fps_from_output "INFO Throughput: 5 FPS".toList = Except.ok none
    ∧ parse_fps_from_output "INFO Throughput: 5 FPS".toList ≠
        Except.ok (some 5) := by
  constructor
  · decide
  · decide

/-- C3 (amended): for every text containing
`[ INFO ] Throughput:  X FPS` — with the bracketed `INFO` marker required,
any amount of whitespace inside the brackets and around the marker, and `X` a
non-negative decimal numeral — such that this occurrence is the first match
of the pattern (no match of the pattern starts anywhere in the earlier part
of the text; earlier non-matching `[` characters, such as preceding
`[ INFO ]` log lines, are allowed), the parser returns exactly the value of
`X`. -/
theorem c3_parse_extracts_first_value
    (pre ws1 ws2 ws3 ws4 ws5 post num : List Char)
    (hfirst : ∀ i, i < pre.length →
      matchAt (pre.drop i ++ ('[' :: (ws1 ++ ("INFO".toList ++ (ws2 ++
        (']' :: (ws3 ++ ("Throughput:".toList ++ (ws4 ++ (num ++ (ws5 ++
          ("FPS".toList ++ post)))))))))))) = none)
    (h1 : ∀ c ∈ ws1, isWS c = true) (h2 : ∀ c ∈ ws2, isWS c = true)
    (h3 : ∀ c ∈ ws3, isWS c = true) (h4 : ∀ c ∈ ws4, isWS c = true)
    (h5 : ∀ c ∈ ws5, isWS c = true)
    (hnum : ∀ c ∈ num, isDD c = true) (hne : num ≠ [])
    (hdig : num.any Char.isDigit = true) (hdot : num.count '.' ≤ 1) :
    parse_fps_from_output (pre ++ ('[' :: (ws1 ++ ("INFO".toList ++ (ws2 ++
      (']' :: (ws3 ++ ("Throughput:".toList ++ (ws4 ++ (num ++ (ws5 ++
        ("FPS".toList ++ post)))))))))))) =
      Except.ok (some (ratOfDigitDot num)) := by
  have hm := matchAt_marker ws1 ws2 ws3 ws4 ws5 num post h1 h2 h3 h4 h5 hnum hne
  have hs : regexSearch ('[' :: (ws1 ++ ("INFO".toList ++ (ws2 ++ (']' :: (ws3 ++
      ("Throughput:".toList ++ (ws4 ++ (num ++ (ws5 ++
        ("FPS".toList ++ post))))))))))) = some num := by
    simp only [regexSearch, hm]
  simp only [parse_fps_from_output,
    regexSearch_append_of_no_match pre _ hfirst, hs, pyFloat,
    if_pos (And.intro hne (And.intro hnum (And.intro hdig hdot)))]

/-- Witness for `c3_parse_extracts_first_value`: a text whose earlier part is
itself a bracketed log line, `[ INFO ] loading`, followed by
`[ INFO ] Throughput:  208.36 FPS ...` — no match starts in the earlier part
(its `[ INFO ]` block is not followed by `Throughput:`), and the parser
returns the value of the first match, `208.36`. -/
theorem c3_parse_extracts_first_value_witness :
    parse_fps_from_output ("[ INFO ] loading\n".toList ++ ('[' :: ([' '] ++
      ("INFO".toList ++ ([' '] ++ (']' :: ([' '] ++ ("Throughput:".toList ++
        ([' ', ' '] ++ ("208.36".toList ++ ([' '] ++
          ("FPS".toList ++ " done".toList)))))))))))) =
      Except.ok (some (ratOfDigitDot "208.36".toList)) :=
  c3_parse_extracts_first_value "[ INFO ] loading\n".toList [' '] [' '] [' ']
    [' ', ' '] [' '] " done".toList "208.36".toList (by decide) (by decide)
    (by decide) (by decide) (by decide) (by decide) (by decide) (by decide)
    (by decide) (by decide)

/-! Order properties of the code-point lexicographic comparison. -/

theorem lexLe_total (a b : List Char) : lexLe a b = true ∨ lexLe b a = true := by
  induction a generalizing b with
  | nil => exact Or.inl rfl
  | cons x xs ih =>
    cases b with
    | nil => exact Or.inr rfl
    | cons y ys =>
      by_cases hxy : x = y
      · subst hxy
        simp only [lexLe, if_pos rfl]
        exact ih ys
      · rcases lt_or_gt_of_ne hxy with h | h
        · exact Or.inl (by simp [lexLe, hxy, h])
        · exact Or.inr (by simp [lexLe, Ne.symm hxy, h])

theorem lexLe_trans {a b c : List Char} (h1 : lexLe a b = true)
    (h2 : lexLe b c = true) : lexLe a c = true := by
  induction a generalizing b c with
  | nil => rfl
  | cons x xs ih =>
    cases b with
    | nil => simp [lexLe] at h1
    | cons y ys =>
      cases c with
      | nil => simp [lexLe] at h2
      | cons z zs =>
        simp only [lexLe] at h1 h2 ⊢
        by_cases hxy : x = y <;> by_cases hyz : y = z
        · subst hxy; subst hyz
          simp only [if_pos rfl] at h1 h2 ⊢
          exact ih h1 h2
        · subst hxy
          simp only [if_pos rfl] at h1
          simp only [if_neg hyz, decide_eq_true_eq] at h2
          simp [if_neg hyz, h2]
        · subst hyz
          simp only [if_neg hxy, decide_eq_true_eq] at h1
          simp [if_neg hxy, h1]
        · simp only [if_neg hxy, decide_eq_true_eq] at h1
          simp only [if_neg hyz, decide_eq_true_eq] at h2
          have hxz : x < z := lt_trans h1 h2
          simp [ne_of_lt hxz, hxz]

theorem lexLe_antisymm {a b : List Char} (h1 : lexLe a b = true)
    (h2 : lexLe b a = true) : a = b := by
  induction a generalizing b with
  | nil =>
    cases b with
    | nil => rfl
    | cons y ys => simp [lexLe] at h2
  | cons x xs ih =>
    cases b with
    | nil => simp [lexLe] at h1
    | cons y ys =>
      by_cases hxy : x = y
      · subst hxy
        simp only [lexLe, if_pos rfl] at h1 h2
        rw [ih h1 h2]
      · simp only [lexLe, if_neg hxy, decide_eq_true_eq] at h1
        simp only [lexLe, if_neg (Ne.symm hxy), decide_eq_true_eq] at h2
        exact absurd h2 (lt_asymm h1)

theorem strLe_total (a b : String) : strLe a b = true ∨ strLe b a = true :=
  lexLe_total a.toList b.toList

theorem strLe_trans {a b c : String} (h1 : strLe a b = true)
    (h2 : strLe b c = true) : strLe a c = true :=
  lexLe_trans h1 h2

theorem strLe_antisymm {a b : String} (h1 : strLe a b = true)
    (h2 : strLe b a = true) : a = b := by
  have h : a.toList = b.toList := lexLe_antisymm h1 h2
  cases a with
  | mk da =>
    cases b with
    | mk db => exact congrArg String.mk (by simpa [String.toList] using h)

theorem sortByKey_perm (l : List (String × ℚ)) : (sortByKey l).Perm l :=
  List.perm_insertionSort _ l

theorem sortByKey_sorted (l : List (String × ℚ)) :
    (sortByKey l).Pairwise (fun p q => strLe p.1 q.1 = true) := by
  haveI : IsTotal (String × ℚ) (fun p q => strLe p.1 q.1 = true) :=
    ⟨fun p q => strLe_total p.1 q.1⟩
  haveI : IsTrans (String × ℚ) (fun p q => strLe p.1 q.1 = true) :=
    ⟨fun _ _ _ h1 h2 => strLe_trans h1 h2⟩
  exact List.sorted_insertionSort _ l

theorem successes_keys_sublist (r : Results) :
    List.Sublist ((successes r).map Prod.fst) (r.map Prod.fst) := by
  induction r with
  | nil => exact List.Sublist.refl _
  | cons p t ih =>
    simp only [successes, List.filterMap_cons] at ih ⊢
    cases hp : p.2.1 with
    | none =>
      simp only [hp, Option.map_none', List.map_cons]
      exact ih.cons p.1
    | some v =>
      simp only [hp, Option.map_some', List.map_cons]
      exact ih.cons₂ p.1

/-! Claims C1, C5 and C6: behaviour of the report formatter. -/

/-- C5: the successful devices in the formatted summary appear in
non-decreasing lexical order of device identifier, the summary contains the
sorted success lines as a contiguous ordered block, and the sorted success
list is independent of the order in which outcomes were collected: any
permutation of the outcome set (with the dict's keys distinct) sorts to the
same list. -/
theorem c5_summary_successes_sorted (mp : String) (results results2 : Results)
    (hperm : results2.Perm results) (hnd : (results.map Prod.fst).Nodup) :
    ((sortByKey (successes results)).map Prod.fst).Pairwise
        (fun a b => strLe a b = true)
    ∧ List.Sublist ((sortByKey (successes results)).map renderSuccess)
        (print_summary mp results)
    ∧ sortByKey (successes results2) = sortByKey (successes results) := by
  have hsorted := sortByKey_sorted (successes results)
  refine ⟨(List.pairwise_map).mpr hsorted, ?_, ?_⟩
  · by_cases he : (sortByKey (successes results)).isEmpty
    · have hnil : sortByKey (successes results) = [] := by
        rwa [List.isEmpty_iff] at he
      simp [hnil]
    · have h1 : List.Sublist ((sortByKey (successes results)).map renderSuccess)
          (modelLine mp :: (sortByKey (successes results)).map renderSuccess) :=
        List.sublist_cons_self _ _
      simp only [print_summary, if_neg he]
      exact h1.trans ((List.sublist_append_right _ _).trans
        ((List.sublist_append_left _ _).trans (List.sublist_append_left _ _)))
  · have hval : (successes results2).Perm (successes results) := hperm.filterMap _
    have hp2 : (sortByKey (successes results2)).Perm (sortByKey (successes results)) :=
      (sortByKey_perm _).trans (hval.trans (sortByKey_perm _).symm)
    have hnd1 : ((successes results).map Prod.fst).Nodup :=
      (successes_keys_sublist results).nodup hnd
    have hndr2 : (results2.map Prod.fst).Nodup := ((hperm.map _).nodup_iff).mpr hnd
    have hnd2 : ((successes results2).map Prod.fst).Nodup :=
      (successes_keys_sublist results2).nodup hndr2
    have hndS1 : ((sortByKey (successes results)).map Prod.fst).Nodup :=
      (((sortByKey_perm (successes results)).map Prod.fst).nodup_iff).mpr hnd1
    have hndS2 : ((sortByKey (successes results2)).map Prod.fst).Nodup :=
      (((sortByKey_perm (successes results2)).map Prod.fst).nodup_iff).mpr hnd2
    have hlt1 : (sortByKey (successes results)).Pairwise
        (fun p q => strLe p.1 q.1 = true ∧ p.1 ≠ q.1) :=
      hsorted.and ((List.pairwise_map).mp hndS1)
    have hlt2 : (sortByKey (successes results2)).Pairwise
        (fun p q => strLe p.1 q.1 = true ∧ p.1 ≠ q.1) :=
      (sortByKey_sorted _).and ((List.pairwise_map).mp hndS2)
    haveI : IsAntisymm (String × ℚ)
        (fun p q => strLe p.1 q.1 = true ∧ p.1 ≠ q.1) :=
      ⟨fun p q h1 h2 => absurd (strLe_antisymm h1.1 h2.1) h1.2⟩
    exact List.eq_of_perm_of_sorted hp2 hlt2 hlt1

/-- Witness for `c5_summary_successes_sorted`: two outcome sets collecting the
same two successes in opposite completion orders produce the same sorted
success block, listed in ascending device order. -/
theorem c5_summary_successes_sorted_witness :
    ((sortByKey (successes [("GPU.1", (some 50, "")), ("GPU.0", (some 100, ""))])).map
        Prod.fst).Pairwise (fun a b => strLe a b = true)
    ∧ List.Sublist
        ((sortByKey (successes [("GPU.1", (some 50, "")), ("GPU.0", (some 100, ""))])).map
          renderSuccess)
        (print_summary "m" [("GPU.1", (some 50, "")), ("GPU.0", (some 100, ""))])
    ∧ sortByKey (successes [("GPU.0", (some 100, "")), ("GPU.1", (some 50, ""))]) =
        sortByKey (successes [("GPU.1", (some 50, "")), ("GPU.0", (some 100, ""))]) :=
  c5_summary_successes_sorted "m"
    [("GPU.1", (some 50, "")), ("GPU.0", (some 100, ""))]
    [("GPU.0", (some 100, "")), ("GPU.1", (some 50, ""))]
    (List.Perm.swap _ _ _) (by decide)

/-- C1 counterexample: an outcome set with two successful devices (values 100
and 50, so success count exceeds 1 and the total would be 150) whose formatted
summary contains no total-throughput line: no line mentions `Total` and no
line renders the value 150, because `print_summary` never computes or prints
a total. This refutes the claimed "if and only if" in the direction it
asserts a total line exists. -/
theorem c1_no_total_line_counterexample :
    1 < (successes ex_two_success).length
    ∧ ((successes ex_two_success).map Prod.snd).sum = 150
    ∧ spec_total_line_present (print_summary "model.xml" ex_two_success) 150 = false := by
  refine ⟨by decide, ?_, by decide⟩
  show (100 : ℚ) + ((50 : ℚ) + 0) = 150
  norm_num

/-- C1 (amended): the formatted summary never contains a total-throughput
line for any outcome set: every emitted line is a blank line, a delimiter
line, the model line, a per-device success line, the failure header, or a
per-device failure line — no aggregate total is computed or printed for any
success count. -/
theorem c1_summary_has_no_total_line (mp : String) (results : Results) :
    ∀ l ∈ print_summary mp results,
      l = "" ∨ l = dashes ∨ l = modelLine mp
      ∨ (∃ p ∈ sortByKey (successes results), l = renderSuccess p)
      ∨ l = failHeader
      ∨ ∃ p ∈ failures results, l = renderFailure p := by
  intro l hl
  simp only [print_summary, List.mem_append] at hl
  rcases hl with ((h | h) | h) | h
  · rcases List.mem_cons.mp h with h | h
    · exact Or.inl h
    · exact Or.inr (Or.inl (List.mem_singleton.mp h))
  · by_cases hs : (sortByKey (successes results)).isEmpty
    · rw [if_pos hs] at h
      exact absurd h (List.not_mem_nil l)
    · rw [if_neg hs] at h
      rcases List.mem_cons.mp h with h | h
      · exact Or.inr (Or.inr (Or.inl h))
      · obtain ⟨p, hp, hpe⟩ := List.mem_map.mp h
        exact Or.inr (Or.inr (Or.inr (Or.inl ⟨p, hp, hpe.symm⟩)))
  · by_cases hf : (failures results).isEmpty
    · rw [if_pos hf] at h
      exact absurd h (List.not_mem_nil l)
    · rw [if_neg hf] at h
      rcases List.mem_append.mp h with h | h
      · rcases List.mem_cons.mp h with h | h
        · exact Or.inl h
        · exact Or.inr (Or.inr (Or.inr (Or.inr (Or.inl (List.mem_singleton.mp h)))))
      · obtain ⟨p, hp, hpe⟩ := List.mem_map.mp h
        exact Or.inr (Or.inr (Or.inr (Or.inr (Or.inr ⟨p, hp, hpe.symm⟩))))
  · rcases List.mem_cons.mp h with h | h
    · exact Or.inr (Or.inl h)
    · exact Or.inl (List.mem_singleton.mp h)

/-- Witness for `c1_summary_has_no_total_line`: the delimiter line of a
concrete summary is classified by the characterization. -/
theorem c1_summary_has_no_total_line_witness :
    dashes = "" ∨ dashes = dashes ∨ dashes = modelLine "m"
    ∨ (∃ p ∈ sortByKey (successes ([] : Results)), dashes = renderSuccess p)
    ∨ dashes = failHeader
    ∨ ∃ p ∈ failures ([] : Results), dashes = renderFailure p :=
  c1_summary_has_no_total_line "m" [] dashes (by decide)

/-- C6 counterexample: given an empty outcome set the report formatter
`print_summary` still emits four lines — a blank line, the two 62-dash
delimiter lines and a trailing blank line — not zero lines. -/
theorem c6_empty_formatter_counterexample :
    print_summary "model.xml" [] = ["", dashes, dashes, ""]
    ∧ (print_summary "model.xml" []).length ≠ 0 :=
  ⟨by decide, by decide⟩

/-- C6 (amended): the zero-lines behaviour belongs to the scheduler, not the
formatter: with an empty device list `run_parallel_gpu_benchmarks` returns
the empty outcome set and prints nothing at all (it returns before reaching
`print_summary`), while `print_summary` itself, applied to an empty outcome
set, emits exactly the delimiter block (blank line, two dash lines, trailing
blank) and no model, success or failure content. -/
theorem c6_empty_outcomes (exec : List String → ℤ → ExecResult)
    (mp mp2 : String) (dur : ℤ) (ss : Bool) (order : List String) :
    run_parallel_gpu_benchmarks exec mp [] dur ss order = ([], [])
    ∧ print_summary mp2 [] = ["", dashes, dashes, ""] :=
  ⟨rfl, rfl⟩

/-! Helper lemmas about the dict model and the scheduler. -/

theorem dictInsert_fresh (m : Results) (k : String) (v : BenchOut)
    (hk : k ∉ m.map Prod.fst) : dictInsert m k v = m ++ [(k, v)] := by
  have hany : m.any (fun p => p.1 == k) = false := by
    by_contra h
    rw [Bool.not_eq_false, List.any_eq_true] at h
    obtain ⟨p, hp, hbeq⟩ := h
    exact hk (List.mem_map.mpr ⟨p, hp, beq_iff_eq.mp hbeq⟩)
  simp [dictInsert, hany]

theorem foldl_dictInsert_pairs (new : Results) (init : Results)
    (h : (init.map Prod.fst ++ new.map Prod.fst).Nodup) :
    new.foldl (fun acc p => dictInsert acc p.1 p.2) init = init ++ new := by
  induction new generalizing init with
  | nil => simp
  | cons q t ih =>
    have hsh : init.map Prod.fst ++ (q :: t).map Prod.fst =
        (init.map Prod.fst ++ [q.1]) ++ t.map Prod.fst := by simp
    rw [hsh] at h
    have hq : q.1 ∉ init.map Prod.fst := by
      intro hmem
      have hnd1 : (init.map Prod.fst ++ [q.1]).Nodup := (List.nodup_append.mp h).1
      rcases List.nodup_append.mp hnd1 with ⟨-, -, hdisj⟩
      exact hdisj hmem (List.mem_singleton.mpr rfl)
    rw [List.foldl_cons, dictInsert_fresh init q.1 q.2 hq, ih]
    · simp
    · simpa using h

/-- The results dict `run_parallel_gpu_benchmarks` builds: one entry per task
in completion order, each device bound to its own outcome. -/
theorem run_parallel_results (exec : List String → ℤ → ExecResult)
    (mp : String) (devices : List String) (dur : ℤ) (ss : Bool)
    (order : List String) (hnd : order.Nodup) (hperm : order.Perm devices) :
    (run_parallel_gpu_benchmarks exec mp devices dur ss order).1 =
      order.map (fun d => (d, bench_outcome exec mp d dur)) := by
  by_cases he : devices.isEmpty
  · have hdev : devices = [] := List.isEmpty_iff.mp he
    subst hdev
    have : order = [] := hperm.eq_nil
    subst this
    rfl
  · simp only [run_parallel_gpu_benchmarks, if_neg he]
    show order.foldl (fun acc d =>
        dictInsert acc d (bench_outcome exec mp d dur)) [] = _
    rw [← List.foldl_map (fun d => (d, bench_outcome exec mp d dur))
      (fun acc p => dictInsert acc p.1 p.2) order []]
    rw [foldl_dictInsert_pairs _ []
      (by simpa [List.map_map, Function.comp_def] using hnd)]
    simp

theorem filter_ne_eq_erase (l : List String) (a : String) (hnd : l.Nodup) :
    l.filter (fun g => g ≠ a) = l.erase a := by
  rw [hnd.erase_eq_filter]
  exact List.filter_congr (fun x _ => by by_cases h : x = a <;> simp [h])

theorem cons_filter_ne_perm (l : List String) (a : String) (hnd : l.Nodup)
    (ha : a ∈ l) : (a :: l.filter (fun g => g ≠ a)).Perm l := by
  rw [filter_ne_eq_erase l a hnd]
  exact (List.perm_cons_erase ha).symm

/-! Claims C4 and C10: completeness of the scheduler's result collection. -/

/-- C4: for every list of distinct devices, every behaviour of the external
executable (hence every assignment of per-device outcomes, successes and
failures alike), both topology modes, and every completion order of the
concurrent batch, the scheduler's collected dict contains exactly one entry
per requested device — it is a permutation of the devices list, each device
bound to its own task's outcome, with no duplicate keys — and since
`bench_outcome` is total (every failure of `benchmark_gpu` is caught and
classified, src/ai_benchmark.py lines 106-111), no device's failure escapes
the scheduler or removes another device from the result set. -/
theorem c4_run_benchmarks_complete (exec : List String → ℤ → ExecResult)
    (sriov : Bool) (mp : String) (devices : List String) (dur : ℤ)
    (order : List String) (hnd : devices.Nodup)
    (hord : order.Perm (if sriov = true ∧ 1 < devices.length then
      devices.filter (fun g => g ≠ "GPU.0") else devices)) :
    ((run_benchmarks exec sriov mp devices dur order).1).Perm
        (devices.map (fun d => (d, bench_outcome exec mp d dur)))
    ∧ (((run_benchmarks exec sriov mp devices dur order).1).map Prod.fst).Nodup := by
  have hkeys : ∀ res : Results,
      res.Perm (devices.map (fun d => (d, bench_outcome exec mp d dur))) →
      (res.map Prod.fst).Nodup := by
    intro res h
    have h2 := h.map Prod.fst
    have he : (devices.map (fun d => (d, bench_outcome exec mp d dur))).map
        Prod.fst = devices := by
      simp [List.map_map, Function.comp_def]
    rw [he] at h2
    exact (h2.nodup_iff).mpr hnd
  suffices h : ((run_benchmarks exec sriov mp devices dur order).1).Perm
      (devices.map (fun d => (d, bench_outcome exec mp d dur))) from ⟨h, hkeys _ h⟩
  by_cases hc : sriov = true ∧ 1 < devices.length
  · rw [if_pos hc] at hord
    have hndrem : (devices.filter (fun g => g ≠ "GPU.0")).Nodup := hnd.filter _
    have hndo : order.Nodup := (hord.nodup_iff).mpr hndrem
    have hno0 : "GPU.0" ∉ order := by
      intro hmem
      have h1 : "GPU.0" ∈ devices.filter (fun g => g ≠ "GPU.0") :=
        hord.mem_iff.mp hmem
      have h2 := (List.mem_filter.mp h1).2
      simp at h2
    have hremne : ¬ (devices.filter (fun g => g ≠ "GPU.0")).isEmpty = true := by
      intro hie
      rw [List.isEmpty_iff] at hie
      have hall : ∀ a ∈ devices, a = "GPU.0" := by
        intro a ha
        by_contra hne
        have hmem : a ∈ devices.filter (fun g => g ≠ "GPU.0") :=
          List.mem_filter.mpr ⟨ha, by simp [hne]⟩
        rw [hie] at hmem
        exact absurd hmem (List.not_mem_nil a)
      rcases devices with _ | ⟨a, _ | ⟨b, t⟩⟩
      · simp at hc
      · simp at hc
      · have ha := hall a (by simp)
        have hb := hall b (by simp)
        have hnab : a ∉ b :: t := (List.nodup_cons.mp hnd).1
        exact hnab (by simp [ha, hb])
    simp only [run_benchmarks, if_pos hc]
    by_cases h0 : "GPU.0" ∈ devices
    · rw [if_pos h0, if_neg hremne]
      rw [run_parallel_results exec mp _ dur false order hndo hord]
      have hstep1 : dictInsert ([] : Results) (benchmark_gpu exec mp "GPU.0" dur).1
          (benchmark_gpu exec mp "GPU.0" dur).2 =
          [("GPU.0", bench_outcome exec mp "GPU.0" dur)] := rfl
      rw [hstep1]
      rw [show dictUpdate [("GPU.0", bench_outcome exec mp "GPU.0" dur)]
          (order.map (fun d => (d, bench_outcome exec mp d dur))) =
          [("GPU.0", bench_outcome exec mp "GPU.0" dur)] ++
            order.map (fun d => (d, bench_outcome exec mp d dur)) from
        foldl_dictInsert_pairs _ _ (by
          simp only [List.map_map, List.map_cons, List.map_nil,
            Function.comp_def, List.singleton_append, List.map_id']
          exact List.nodup_cons.mpr ⟨hno0, hndo⟩)]
      have h1 : (("GPU.0" :: order).map
          (fun d => (d, bench_outcome exec mp d dur))).Perm
          (("GPU.0" :: devices.filter (fun g => g ≠ "GPU.0")).map
            (fun d => (d, bench_outcome exec mp d dur))) :=
        (hord.cons "GPU.0").map _
      have h2 := (cons_filter_ne_perm devices "GPU.0" hnd h0).map
        (fun d => (d, bench_outcome exec mp d dur))
      simpa using h1.trans h2
    · rw [if_neg h0, if_neg hremne]
      rw [run_parallel_results exec mp _ dur false order hndo hord]
      rw [show dictUpdate ([] : Results)
          (order.map (fun d => (d, bench_outcome exec mp d dur))) =
          [] ++ order.map (fun d => (d, bench_outcome exec mp d dur)) from
        foldl_dictInsert_pairs _ _ (by
          simpa [List.map_map, Function.comp_def] using hndo)]
      have hremdev : devices.filter (fun g => g ≠ "GPU.0") = devices :=
        List.filter_eq_self.mpr (fun a ha => by
          simp only [decide_eq_true_eq]
          exact fun he => h0 (he ▸ ha))
      rw [hremdev] at hord
      simpa using hord.map (fun d => (d, bench_outcome exec mp d dur))
  · rw [if_neg hc] at hord
    simp only [run_benchmarks, if_neg hc]
    rw [run_parallel_results exec mp devices dur true order
      ((hord.nodup_iff).mpr hnd) hord]
    exact hord.map _

/-- Witness for `c4_run_benchmarks_complete`: a staged run with two devices
whose tasks all time out still yields exactly one outcome per device. -/
theorem c4_run_benchmarks_complete_witness :
    ((run_benchmarks (fun _ _ => ExecResult.timedOut) true "m"
        ["GPU.1", "GPU.0"] 30 ["GPU.1"]).1).Perm
      (["GPU.1", "GPU.0"].map (fun d =>
        (d, bench_outcome (fun _ _ => ExecResult.timedOut) "m" d 30)))
    ∧ (((run_benchmarks (fun _ _ => ExecResult.timedOut) true "m"
        ["GPU.1", "GPU.0"] 30 ["GPU.1"]).1).map Prod.fst).Nodup :=
  c4_run_benchmarks_complete (fun _ _ => ExecResult.timedOut) true "m"
    ["GPU.1", "GPU.0"] 30 ["GPU.1"] (by decide) (by decide)

/-- C10: when the topology is Staged with more than one device but `GPU.0` is
not among the discovered devices, the isolated phase is skipped — the result
dict is exactly the one produced by the single concurrent batch over the
(unchanged) remaining-device list, it contains no entry for `GPU.0`, and it
still holds exactly one outcome per discovered device. -/
theorem c10_staged_without_primary (exec : List String → ℤ → ExecResult)
    (mp : String) (devices : List String) (dur : ℤ) (order : List String)
    (hnd : devices.Nodup) (hlen : 1 < devices.length)
    (h0 : "GPU.0" ∉ devices) (hord : order.Perm devices) :
    (run_benchmarks exec true mp devices dur order).1 =
      (run_parallel_gpu_benchmarks exec mp
        (devices.filter (fun g => g ≠ "GPU.0")) dur false order).1
    ∧ ((run_benchmarks exec true mp devices dur order).1).Perm
        (devices.map (fun d => (d, bench_outcome exec mp d dur)))
    ∧ ∀ p ∈ (run_benchmarks exec true mp devices dur order).1, p.1 ≠ "GPU.0" := by
  have hc : (true : Bool) = true ∧ 1 < devices.length := ⟨rfl, hlen⟩
  have hremdev : devices.filter (fun g => g ≠ "GPU.0") = devices :=
    List.filter_eq_self.mpr (fun a ha => by
      simp only [decide_eq_true_eq]
      exact fun he => h0 (he ▸ ha))
  have hndo : order.Nodup := (hord.nodup_iff).mpr hnd
  have hordf : order.Perm (devices.filter (fun g => g ≠ "GPU.0")) := by
    rw [hremdev]; exact hord
  have hremne : ¬ (devices.filter (fun g => g ≠ "GPU.0")).isEmpty = true := by
    rw [hremdev]
    intro hie
    rw [List.isEmpty_iff] at hie
    rw [hie] at hlen
    simp at hlen
  have hL : (run_benchmarks exec true mp devices dur order).1 =
      order.map (fun d => (d, bench_outcome exec mp d dur)) := by
    simp only [run_benchmarks]
    rw [if_pos (show True ∧ 1 < devices.length from ⟨trivial, hlen⟩),
      if_neg h0, if_neg hremne]
    rw [run_parallel_results exec mp _ dur false order hndo hordf]
    rw [show dictUpdate ([] : Results)
        (order.map (fun d => (d, bench_outcome exec mp d dur))) =
        [] ++ order.map (fun d => (d, bench_outcome exec mp d dur)) from
      foldl_dictInsert_pairs _ _ (by
        simpa [List.map_map, Function.comp_def] using hndo)]
    simp
  have hR : (run_parallel_gpu_benchmarks exec mp
      (devices.filter (fun g => g ≠ "GPU.0")) dur false order).1 =
      order.map (fun d => (d, bench_outcome exec mp d dur)) :=
    run_parallel_results exec mp _ dur false order hndo hordf
  refine ⟨hL.trans hR.symm, ?_, ?_⟩
  · rw [hL]
    exact hord.map _
  · intro p hp
    rw [hL] at hp
    obtain ⟨d, hd, rfl⟩ := List.mem_map.mp hp
    have hdd : d ∈ devices := hord.mem_iff.mp hd
    exact fun he => h0 (he ▸ hdd)

/-- Witness for `c10_staged_without_primary`: a staged run over
`["GPU.1", "GPU.2"]` (no `GPU.0`), collected in reverse completion order. -/
theorem c10_staged_without_primary_witness :
    (run_benchmarks (fun _ _ => ExecResult.timedOut) true "m"
        ["GPU.1", "GPU.2"] 30 ["GPU.2", "GPU.1"]).1 =
      (run_parallel_gpu_benchmarks (fun _ _ => ExecResult.timedOut) "m"
        (["GPU.1", "GPU.2"].filter (fun g => g ≠ "GPU.0")) 30 false
        ["GPU.2", "GPU.1"]).1
    ∧ ((run_benchmarks (fun _ _ => ExecResult.timedOut) true "m"
        ["GPU.1", "GPU.2"] 30 ["GPU.2", "GPU.1"]).1).Perm
        (["GPU.1", "GPU.2"].map (fun d =>
          (d, bench_outcome (fun _ _ => ExecResult.timedOut) "m" d 30)))
    ∧ ∀ p ∈ (run_benchmarks (fun _ _ => ExecResult.timedOut) true "m"
        ["GPU.1", "GPU.2"] 30 ["GPU.2", "GPU.1"]).1, p.1 ≠ "GPU.0" :=
  c10_staged_without_primary (fun _ _ => ExecResult.timedOut) "m"
    ["GPU.1", "GPU.2"] 30 ["GPU.2", "GPU.1"] (by decide) (by decide)
    (by decide) (by decide)

/-! Claim C7: the task runner's timeout and outcome classification. -/

/-- C7: `benchmark_gpu` runs the child with timeout `duration + 60` — its
outcome depends only on the executable's behaviour at that timeout value —
and classifies the outcome: `Benchmark timed out` on expiry,
`benchmark_app not found in PATH` when the executable cannot be located,
`Failed to parse FPS from output` when the child completes but the parser
returns "absent", `Error: <message>` on any other invocation failure, and
success carrying the parsed value when the parser produces one. -/
theorem c7_benchmark_gpu_spec (exec exec2 : List String → ℤ → ExecResult)
    (mp dev : String) (dur : ℤ) :
    ((∀ c, exec2 c (dur + 60) = exec c (dur + 60)) →
      benchmark_gpu exec2 mp dev dur = benchmark_gpu exec mp dev dur)
    ∧ (exec (bench_cmd mp dev dur) (dur + 60) = ExecResult.timedOut →
      benchmark_gpu exec mp dev dur = (dev, (none, "Benchmark timed out")))
    ∧ (exec (bench_cmd mp dev dur) (dur + 60) = ExecResult.notFound →
      benchmark_gpu exec mp dev dur =
        (dev, (none, "benchmark_app not found in PATH")))
    ∧ (∀ m, exec (bench_cmd mp dev dur) (dur + 60) = ExecResult.otherError m →
      benchmark_gpu exec mp dev dur = (dev, (none, "Error: " ++ m)))
    ∧ (∀ out err,
        exec (bench_cmd mp dev dur) (dur + 60) = ExecResult.completed out err →
        parse_fps_from_output (out ++ err) = Except.ok none →
        benchmark_gpu exec mp dev dur =
          (dev, (none, "Failed to parse FPS from output")))
    ∧ (∀ out err v,
        exec (bench_cmd mp dev dur) (dur + 60) = ExecResult.completed out err →
        parse_fps_from_output (out ++ err) = Except.ok (some v) →
        benchmark_gpu exec mp dev dur = (dev, (some v, ""))) := by
  refine ⟨fun h => ?_, fun h => ?_, fun h => ?_, fun m h => ?_,
    fun out err h hp => ?_, fun out err v h hp => ?_⟩
  · simp [benchmark_gpu, bench_outcome, h]
  · simp [benchmark_gpu, bench_outcome, h]
  · simp [benchmark_gpu, bench_outcome, h]
  · simp [benchmark_gpu, bench_outcome, h]
  · simp [benchmark_gpu, bench_outcome, h, hp]
  · simp [benchmark_gpu, bench_outcome, h, hp]

/-- Witness for `c7_benchmark_gpu_spec`: a missing executable yields the
`ExecutableNotFound` outcome for the requested device. -/
theorem c7_benchmark_gpu_spec_witness :
    benchmark_gpu (fun _ _ => ExecResult.notFound) "m" "GPU.0" 30 =
      ("GPU.0", (none, "benchmark_app not found in PATH")) :=
  (c7_benchmark_gpu_spec (fun _ _ => ExecResult.notFound)
    (fun _ _ => ExecResult.notFound) "m" "GPU.0" 30).2.2.1 rfl

/-! Claim C8: the topology predicate. -/

/-- C8 counterexample: an OS-level read failure other than `FileNotFoundError`
or `PermissionError` — for example an I/O error — escapes `is_sriov_enabled`
as an exception: the source's `except` clause names only
`(FileNotFoundError, ValueError, PermissionError)`, so this read failure
raises a fatal error instead of yielding "isolation disabled". -/
theorem c8_osError_raises_counterexample :
    is_sriov_enabled (ReadResult.osError "Input/output error") =
      Except.error "Input/output error" := rfl

/-- C8 (amended): the predicate returns "isolation enabled" iff the counter
file's content is read and its stripped text parses as an integer greater
than zero; a missing file, a permission error, unparsable content, or a
non-positive value yields "isolation disabled"; but an OS read failure
outside the two caught exception types propagates as an exception rather
than being treated as "disabled". -/
theorem c8_is_sriov_enabled_spec (r : ReadResult) :
    (is_sriov_enabled r = Except.ok true ↔
      ∃ s n, r = ReadResult.content s ∧ pyInt (pyStrip s) = some n ∧ 0 < n)
    ∧ ((r = ReadResult.fileNotFound ∨ r = ReadResult.permissionError ∨
        (∃ s, r = ReadResult.content s ∧ pyInt (pyStrip s) = none) ∨
        (∃ s n, r = ReadResult.content s ∧ pyInt (pyStrip s) = some n ∧ n ≤ 0)) →
      is_sriov_enabled r = Except.ok false)
    ∧ (∀ m, r = ReadResult.osError m → is_sriov_enabled r = Except.error m) := by
  refine ⟨⟨?_, ?_⟩, ?_, ?_⟩
  · intro h
    cases r with
    | content s =>
      cases hp : pyInt (pyStrip s) with
      | none => simp [is_sriov_enabled, hp] at h
      | some n =>
        refine ⟨s, n, rfl, hp, ?_⟩
        simp only [is_sriov_enabled, hp, Except.ok.injEq,
          decide_eq_true_eq] at h
        exact h
    | fileNotFound => simp [is_sriov_enabled] at h
    | permissionError => simp [is_sriov_enabled] at h
    | osError m => simp [is_sriov_enabled] at h
  · rintro ⟨s, n, rfl, hp, hn⟩
    simp [is_sriov_enabled, hp, hn]
  · rintro (rfl | rfl | ⟨s, rfl, hp⟩ | ⟨s, n, rfl, hp, hn⟩)
    · rfl
    · rfl
    · simp [is_sriov_enabled, hp]
    · simp only [is_sriov_enabled, hp, Except.ok.injEq]
      exact decide_eq_false (not_lt.mpr hn)
  · rintro m rfl
    rfl

/-- Witness for `c8_is_sriov_enabled_spec`: a counter file reading `2`
(with a trailing newline) reports isolation enabled. -/
theorem c8_is_sriov_enabled_spec_witness :
    is_sriov_enabled (ReadResult.content "2\n") = Except.ok true :=
  (c8_is_sriov_enabled_spec (ReadResult.content "2\n")).1.mpr
    ⟨"2\n", 2, rfl, by decide, by decide⟩

/-! Claim C9: the staged-topology barrier. -/

/-- C9: under staged topology with the primary device present, the primary's
task returns before any remaining device's task is dispatched: in every trace
of the staged scheduler, wherever a start event of a non-primary device
occurs, the primary's finish event lies strictly before it. -/
theorem c9_staged_barrier (devices : List String) (ev : List Ev)
    (h0 : "GPU.0" ∈ devices) (ht : isStagedTrace devices ev = true)
    (d : String) (hd : d ≠ "GPU.0") (pre post : List Ev)
    (hsplit : ev = pre ++ Ev.start d :: post) :
    Ev.finish "GPU.0" ∈ pre := by
  rw [isStagedTrace.eq_def, if_pos h0] at ht
  cases ev with
  | nil => simp at ht
  | cons e1 tl =>
    cases tl with
    | nil => simp at ht
    | cons e2 rest =>
      simp only [Bool.and_eq_true, beq_iff_eq] at ht
      obtain ⟨⟨he1, he2⟩, -⟩ := ht
      subst he1
      subst he2
      cases pre with
      | nil =>
        rw [List.nil_append] at hsplit
        injection hsplit with h1 h2
        injection h1 with h1
        exact absurd h1.symm hd
      | cons p1 ptl =>
        rw [List.cons_append] at hsplit
        injection hsplit with h1 h2
        cases ptl with
        | nil =>
          rw [List.nil_append] at h2
          injection h2 with h3 h4
          exact Ev.noConfusion h3
        | cons p2 ptl2 =>
          rw [List.cons_append] at h2
          injection h2 with h3 h4
          rw [← h3]
          simp

/-- Witness for `c9_staged_barrier`: in the concrete staged trace where
`GPU.0` runs first and `GPU.1`, `GPU.2` then run concurrently, `GPU.1`'s
start is preceded by `GPU.0`'s finish. -/
theorem c9_staged_barrier_witness :
    Ev.finish "GPU.0" ∈ [Ev.start "GPU.0", Ev.finish "GPU.0"] :=
  c9_staged_barrier ["GPU.0", "GPU.1", "GPU.2"]
    [Ev.start "GPU.0", Ev.finish "GPU.0", Ev.start "GPU.1", Ev.start "GPU.2",
      Ev.finish "GPU.2", Ev.finish "GPU.1"]
    (by decide) (by decide) "GPU.1" (by decide)
    [Ev.start "GPU.0", Ev.finish "GPU.0"]
    [Ev.start "GPU.2", Ev.finish "GPU.2", Ev.finish "GPU.1"] rfl

end SriovBenchmark
